import Mathlib

/-!
Shallow embedding of `src/base.rs` of the raptorq repository.

Conventions used throughout:
* Machine integers (`u8`, `u16`, `u32`, `u64`) are embedded as `Nat`; where the
  Rust code truncates by a cast or wraps modulo a power of two, the embedding
  carries an explicit `% 2^w` (written as a decimal constant).
* Bit shifts by a constant are written as division / multiplication by the
  corresponding decimal power of two (`x >> 16` becomes `x / 65536`,
  `x << 16` becomes `x * 65536`).
* Rust `assert!` failures and the `unreachable!()` branch are embedded as
  `Option`: `none` means the Rust code terminates with a fatal error.
* The `f64` arithmetic in `with_defaults` and `partition` only ever feeds
  integer inputs of magnitude well below 2^53 into a single division followed by
  `ceil`/`floor` and a cast back to an integer.  At the magnitudes reachable in
  the claims (numerators below 2^41, denominators below 2^20) the rounded `f64`
  quotient of two exactly representable integers is strictly between the same
  two consecutive integers as the exact rational quotient, so `ceil`/`floor` of
  the `f64` value coincide with exact integer ceiling/floor division; the
  embedding uses the exact integer operations.  The two spots where an infinite
  `f64` quotient is reachable (`kl` evaluated at `n = 0`, and a zero
  `symbol_size`) are embedded by explicit case splits reproducing the value of
  the final `as u32` cast (`0.0 as u32 = 0`, `inf as u32 = 4294967295`).
-/

/-- Exact integer ceiling division: embeds the Rust pattern
`(a as f64 / b as f64).ceil() as uN` for the in-range magnitudes described in
the file header.  For `b = 0` the Rust expression is NaN or infinite; every use
below either excludes `b = 0` by hypothesis or handles it by an explicit case
split. -/
def natCeilDiv (a b : Nat) : Nat :=
  a / b + (if a % b = 0 then 0 else 1)

/-- PayloadId of `src/base.rs` (RFC 6330 section 3.2): `source_block_number`
is a `u8`, `encoding_symbol_id` a `u32` constrained to 24 bits. -/
structure PayloadId where
  source_block_number : Nat
  encoding_symbol_id : Nat
deriving DecidableEq, Repr

/-- PayloadId::new: `assert!(encoding_symbol_id < 16777216)`, then stores both
fields unmodified.  `none` embeds the assertion failure. -/
def PayloadId.new (source_block_number encoding_symbol_id : Nat) : Option PayloadId :=
  if encoding_symbol_id < 16777216 then
    some { source_block_number, encoding_symbol_id }
  else
    none

/-- PayloadId::serialize: 4 bytes, big-endian; `(x >> 16) as u8` is embedded as
`x / 65536 % 256`, `((x >> 8) & 0xFF) as u8` as `x / 256 % 256`, and
`(x & 0xFF) as u8` as `x % 256`. -/
def PayloadId.serialize (p : PayloadId) : List Nat :=
  [p.source_block_number,
   p.encoding_symbol_id / 65536 % 256,
   p.encoding_symbol_id / 256 % 256,
   p.encoding_symbol_id % 256]

/-- PayloadId::deserialize over a 4-byte array; the Rust argument type
`&[u8; 4]` guarantees the four reads succeed, which the embedding mirrors with
`List.getD` (the default is unreachable for 4-byte inputs).
`(data[1] as u32) << 16` is embedded as `* 65536`, `<< 8` as `* 256`. -/
def PayloadId.deserialize (data : List Nat) : PayloadId :=
  { source_block_number := data.getD 0 0,
    encoding_symbol_id := data.getD 1 0 * 65536 + data.getD 2 0 * 256 + data.getD 3 0 }

/-- EncodingPacket of `src/base.rs` (RFC 6330 section 4.4.2): a PayloadId plus
an owned byte payload (`Vec<u8>` embedded as `List Nat`). -/
structure EncodingPacket where
  payload_id : PayloadId
  data : List Nat
deriving DecidableEq, Repr

/-- EncodingPacket::serialize: the four PayloadId bytes followed by the raw
payload bytes. -/
def EncodingPacket.serialize (p : EncodingPacket) : List Nat :=
  p.payload_id.serialize ++ p.data

/-- EncodingPacket::deserialize: bytes 0..3 decode the PayloadId, the remainder
from offset 4 becomes the payload.  The Rust code indexes `data[0]..data[3]`
and slices `&data[4..]`, which requires at least 4 input bytes (shorter input
is an out-of-contract caller error per the spec); `take`/`getD`/`drop` agree
with it on every input of length at least 4. -/
def EncodingPacket.deserialize (data : List Nat) : EncodingPacket :=
  { payload_id := PayloadId.deserialize (data.take 4),
    data := data.drop 4 }

/-- ObjectTransmissionInformation of `src/base.rs` (RFC 6330 sections 3.3.2 and
3.3.3): `transfer_length` is a `u64` limited to 40 bits, `symbol_size` and
`num_sub_blocks` are `u16`, `num_source_blocks` and `symbol_alignment` are
`u8`. -/
structure ObjectTransmissionInformation where
  transfer_length : Nat
  symbol_size : Nat
  num_source_blocks : Nat
  num_sub_blocks : Nat
  symbol_alignment : Nat
deriving DecidableEq, Repr

/-- ObjectTransmissionInformation::new:
`assert!(transfer_length <= 946270874880)` and
`assert_eq!(symbol_size % alignment as u16, 0)`, then stores all five fields
unmodified.  In Rust, `symbol_size % alignment` with `alignment = 0` is itself
a fatal error (remainder by zero), so construction also fails for
`alignment = 0`, even when `symbol_size = 0`; the embedding makes that case
split explicit because Lean's `Nat` remainder by zero does not fail. -/
def ObjectTransmissionInformation.new
    (transfer_length symbol_size source_blocks sub_blocks alignment : Nat) :
    Option ObjectTransmissionInformation :=
  if transfer_length ≤ 946270874880 then
    if alignment ≠ 0 ∧ symbol_size % alignment = 0 then
      some { transfer_length,
             symbol_size,
             num_source_blocks := source_blocks,
             num_sub_blocks := sub_blocks,
             symbol_alignment := alignment }
    else
      none
  else
    none

/-- ObjectTransmissionInformation::serialize: 12 bytes; the five
`transfer_length` bytes are `(tl >> s) & 0xFF` for s = 32, 24, 16, 8, 0
(embedded as `/ 2^s % 256` with decimal constants), byte 5 is the reserved
zero byte, then `symbol_size` (2 bytes), `num_source_blocks` (1 byte),
`num_sub_blocks` (2 bytes) and `symbol_alignment` (1 byte). -/
def ObjectTransmissionInformation.serialize
    (oti : ObjectTransmissionInformation) : List Nat :=
  [oti.transfer_length / 4294967296 % 256,
   oti.transfer_length / 16777216 % 256,
   oti.transfer_length / 65536 % 256,
   oti.transfer_length / 256 % 256,
   oti.transfer_length % 256,
   0,
   oti.symbol_size / 256 % 256,
   oti.symbol_size % 256,
   oti.num_source_blocks,
   oti.num_sub_blocks / 256 % 256,
   oti.num_sub_blocks % 256,
   oti.symbol_alignment]

/-- ObjectTransmissionInformation::deserialize over a 12-byte array (the Rust
argument type is `&[u8; 12]`); byte 5 (the reserved byte) is never read.
`(data[0] as u64) << 32` is embedded as `* 4294967296`, and so on down to
`<< 8` as `* 256`. -/
def ObjectTransmissionInformation.deserialize (data : List Nat) :
    ObjectTransmissionInformation :=
  { transfer_length :=
      data.getD 0 0 * 4294967296 + data.getD 1 0 * 16777216 +
      data.getD 2 0 * 65536 + data.getD 3 0 * 256 + data.getD 4 0,
    symbol_size := data.getD 6 0 * 256 + data.getD 7 0,
    num_source_blocks := data.getD 8 0,
    num_sub_blocks := data.getD 9 0 * 256 + data.getD 10 0,
    symbol_alignment := data.getD 11 0 }

/-- Partition[I, J] of `src/base.rs` (RFC 6330 section 4.4.1.2).  The `f64`
ceil/floor divisions are exact at `u32` magnitudes (file header); the claims
require `1 ≤ j`, which keeps the embedding away from the division-by-zero
behaviour of `f64`. -/
def partition (i j : Nat) : Nat × Nat × Nat × Nat :=
  let il := natCeilDiv i j
  let is := i / j
  let jl := i - is * j
  let js := j - jl
  (il, is, jl, js)

/-- Cumulative degree-distribution table `f` of Deg[v] in `src/base.rs`
(RFC 6330 section 5.3.5.2), all 31 entries in source order. -/
def degDistributionTable : List Nat :=
  [0, 5243, 529531, 704294, 791675, 844104, 879057, 904023, 922747, 937311,
   948962, 958494, 966438, 973160, 978921, 983914, 988283, 992138, 995565,
   998631, 1001391, 1003887, 1006157, 1008229, 1010129, 1011876, 1013490,
   1014983, 1016370, 1017662, 1048576]

/-- Loop body of Deg[v]: `for d in 1..f.len() { if v < f[d] { return
min(d as u32, lt_symbols - 2); } }`; the list argument carries the table slots
still to scan and `d` the 1-based index of the first of them.  `none` embeds
falling off the loop into `unreachable!()`. -/
def degScan (v lt_symbols : Nat) : List Nat → Nat → Option Nat
  | [], _ => none
  | x :: rest, d => if v < x then some (min d (lt_symbols - 2)) else degScan v lt_symbols rest (d + 1)

/-- Deg[v] of `src/base.rs`: `assert!(v < 1048576)` (embedded as the outer
`if`), then scan table slots 1..30 for the first strictly greater than `v`. -/
def deg (v lt_symbols : Nat) : Option Nat :=
  if v < 1048576 then
    degScan v lt_symbols (degDistributionTable.drop 1) 1
  else
    none

/-- Smallest 1-based index `d` into the 31-entry table `f` with `v < f[d]`,
written the way the spec words it (section 4.5); used to state the claims
about `deg` and `intermediate_tuple`. -/
def degIndexSpec (v : Nat) : Nat :=
  (degDistributionTable.drop 1).findIdx (fun x => decide (v < x)) + 1

/-- Tuple[Kprime, X] of `src/base.rs` (RFC 6330 section 5.3.5.4).  The three
constants `J = systematic_index(Kprime)`, `W = num_lt_symbols(Kprime)` and
`P1 = calculate_p1(Kprime)` and the deterministic PRNG `rand` come from
`src/rng.rs` and `src/systematic_constants.rs`, which are outside the sources
given here; per the spec (sections 1 and 6) they are externally supplied, so
the embedding takes them as parameters.  `u32` products are reduced by an
explicit `% 4294967296`; the odd-forcing increment cannot overflow because it
is only applied to an even (hence not maximal) `u32` value.  The seed
`y = (B + X*A) mod 2^32` is computed in `u64` in Rust, where it cannot
overflow, so only the final reduction appears.  `none` embeds the `deg`
assertion failure (unreachable when `rand` honours its contract). -/
def intermediate_tuple (rand : Nat → Nat → Nat → Nat) (J W P1 : Nat)
    (internal_symbol_id : Nat) : Option (Nat × Nat × Nat × Nat × Nat × Nat) :=
  let A0 := (53591 + J * 997) % 4294967296
  let A := if A0 % 2 = 0 then A0 + 1 else A0
  let B := 10267 * (J + 1) % 4294967296
  let y := (B + internal_symbol_id * A) % 4294967296
  let v := rand y 0 1048576
  match deg v W with
  | none => none
  | some d =>
    let a := 1 + rand y 1 (W - 1)
    let b := rand y 2 W
    let d1 := if d < 4 then 2 + rand internal_symbol_id 3 2 else 2
    let a1 := 1 + rand internal_symbol_id 4 (P1 - 1)
    let b1 := rand internal_symbol_id 5 P1
    some (d, a, b, d1, a1, b1)

/-- Tuple[Kprime, X] as the spec's claim words it, step by step: `A = 53591 +
J*997`, incremented by 1 if even; `B = 10267*(J+1)`; `y = (B + X*A) mod 2^32`;
`v = Rand(y, 0, 1048576)`; `d = Deg(v, W)` (the smallest-index reading of
section 4.5); `a = 1 + Rand(y, 1, W-1)`; `b = Rand(y, 2, W)`; `d1 = 2` if
`d ≥ 4` and `2 + Rand(X, 3, 2)` otherwise (seeded with `X`, not `y`);
`a1 = 1 + Rand(X, 4, P1-1)`; `b1 = Rand(X, 5, P1)`. -/
def intermediateTupleSpec (rand : Nat → Nat → Nat → Nat) (J W P1 : Nat)
    (X : Nat) : Nat × Nat × Nat × Nat × Nat × Nat :=
  let A0 := 53591 + J * 997
  let A := if A0 % 2 = 0 then A0 + 1 else A0
  let B := 10267 * (J + 1)
  let y := (B + X * A) % 4294967296
  let v := rand y 0 1048576
  let d := min (degIndexSpec v) (W - 2)
  let a := 1 + rand y 1 (W - 1)
  let b := rand y 2 W
  let d1 := if 4 ≤ d then 2 else 2 + rand X 3 2
  let a1 := 1 + rand X 4 (P1 - 1)
  let b1 := rand X 5 P1
  (d, a, b, d1, a1, b1)

/-- Modelled from the spec: the memory bound of the `kl` closure inside
`ObjectTransmissionInformation::with_defaults`,
`floor(max_memory / (alignment * x))` with `x = ceil(symbol_size /
(alignment * n))`, `max_memory = 10*1024*1024` and `alignment = 8` (spec
section 4.3 step 6).  The two case splits reproduce the `f64` infinities of
the Rust expression: for `n = 0` the quotient `symbol_size / 0.0` is infinite,
so the bound casts to `0`; for `n ≥ 1` and `symbol_size = 0` the bound is
`10485760 / 0.0`, infinite, and the `as u32` cast saturates to `4294967295`.
Everywhere else the `f64` arithmetic is exact (file header). -/
def klBound (symbol_size n : Nat) : Nat :=
  if n = 0 then 0
  else if symbol_size = 0 then 4294967295
  else 10485760 / (8 * natCeilDiv symbol_size (8 * n))

/-- Modelled from the spec: the `kl` closure of `with_defaults`.  It scans the
externally supplied table `SYSTEMATIC_INDICES_AND_PARAMETERS`
(`src/systematic_constants.rs`, outside the sources given here) in reverse
order — largest Kprime first — and returns the first Kprime at most the memory
bound; only the Kprime column of the table is ever read, so the embedding
takes that column (in ascending table order) as the parameter `kprimes`.
`none` embeds falling off the scan into `unreachable!()` (spec section 4.3
step 6 calls that a programming error).  Per spec sections 1 and 6 the table
is the canonical systematic-parameters table of the governing specification,
whose Kprime column ascends from 10 to 56403. -/
def kl (kprimes : List Nat) (symbol_size n : Nat) : Option Nat :=
  kprimes.reverse.find? (fun kprime => decide (kprime ≤ klBound symbol_size n))

/-- Loop of `with_defaults` choosing the sub-block count: `let mut n = 1;
for i in 1..=n_max { n = i; if target <= kl(i) { break } }` where `target` is
`ceil(kt / num_source_blocks)`.  `i` is the next candidate and `fuel` the
number of candidates still to try (`n_max - i + 1` at every call); when fuel
runs out the loop has finished without a break and `n` holds the last
candidate `i - 1 = n_max`.  `none` embeds a `kl` scan failure. -/
def chooseSubBlocksScan (kprimes : List Nat) (symbol_size target : Nat) :
    Nat → Nat → Option Nat
  | i, 0 => some (i - 1)
  | i, fuel + 1 =>
    match kl kprimes symbol_size i with
    | none => none
    | some k => if target ≤ k then some i else chooseSubBlocksScan kprimes symbol_size target (i + 1) fuel

/-- Sub-block selection of `with_defaults` steps 8: for `n_max = 0` the Rust
loop body never runs and `n` keeps its initial value 1; otherwise the scan
starts at candidate 1 with `n_max` candidates available. -/
def chooseSubBlocks (kprimes : List Nat) (symbol_size target n_max : Nat) : Option Nat :=
  if n_max = 0 then some 1 else chooseSubBlocksScan kprimes symbol_size target 1 n_max

/-- Modelled from the spec (table parameter) and `src/base.rs` (everything
else): ObjectTransmissionInformation::with_defaults.
`assert!(max_packet_size >= alignment)` with `alignment = 8` is the outer
`if`; `symbol_size` is the largest multiple of 8 not exceeding
`max_packet_size`; `kt = ceil(transfer_length / symbol_size)` and
`n_max = floor(symbol_size / 64)` are the exact values of the `f64`
expressions (file header; `symbol_size ≥ 8` holds on this branch);
`num_source_blocks = ceil(kt / kl(n_max))`.  The stored fields carry the
`as u8` and `as u16` down-casts of the Rust record literal as explicit
`% 256` and `% 65536`. -/
def with_defaults (kprimes : List Nat) (transfer_length max_packet_size : Nat) :
    Option ObjectTransmissionInformation :=
  if max_packet_size < 8 then none
  else
    let symbol_size := max_packet_size - max_packet_size % 8
    let kt := natCeilDiv transfer_length symbol_size
    let n_max := symbol_size / 64
    match kl kprimes symbol_size n_max with
    | none => none
    | some kl_n_max =>
      let num_source_blocks := natCeilDiv kt kl_n_max
      match chooseSubBlocks kprimes symbol_size (natCeilDiv kt num_source_blocks) n_max with
      | none => none
      | some n =>
        some { transfer_length,
               symbol_size,
               num_source_blocks := num_source_blocks % 256,
               num_sub_blocks := n % 65536,
               symbol_alignment := 8 }

/-- Modelled from the spec: a two-row stand-in for the Kprime column of the
canonical systematic-parameters table, carrying its extreme rows 10 and 56403
(the claims proved below never depend on the inner rows: the scans only ask
for the largest entry under a bound that is either below every entry or at
least the maximal entry).  Used to instantiate the table-parameterized
theorems at concrete inputs. -/
def kprimeColumnSample : List Nat := [10, 56403]

/-- Division of `j * q + r + j - 1` by `j` lands on `q` exactly when `r = 0`
and on `q + 1` otherwise; the arithmetic core of the ceiling-division
characterization. -/
theorem natCeilDiv_core (q r j : Nat) (hj : 0 < j) (hr : r < j) :
    (j * q + r + j - 1) / j = q + (if r = 0 then 0 else 1) := by
  rcases Nat.eq_zero_or_pos r with h0 | hpos
  · subst h0
    have e : j * q + 0 + j - 1 = j * q + (j - 1) := by omega
    rw [e, Nat.mul_add_div hj]
    have hz : (j - 1) / j = 0 := Nat.div_eq_of_lt (by omega)
    simp [hz]
  · have e : j * q + r + j - 1 = j * (q + 1) + (r - 1) := by
      rw [Nat.mul_add, Nat.mul_one]; omega
    rw [e, Nat.mul_add_div hj]
    have hz : (r - 1) / j = 0 := Nat.div_eq_of_lt (by omega)
    have hne : ¬r = 0 := by omega
    simp [hz, hne]

/-- The embedded ceiling division agrees with the `(a + b - 1) / b` form for a
positive divisor. -/
theorem natCeilDiv_eq_add_pred_div (i j : Nat) (hj : 0 < j) :
    natCeilDiv i j = (i + j - 1) / j := by
  have h := Nat.div_add_mod i j
  have hr := Nat.mod_lt i hj
  have e : i + j - 1 = j * (i / j) + i % j + j - 1 := by omega
  rw [e, natCeilDiv_core (i / j) (i % j) j hj hr]
  simp [natCeilDiv]

/-- Subtracting the floored multiple recovers the remainder. -/
theorem sub_div_mul_eq_mod (i j : Nat) : i - i / j * j = i % j := by
  have h := Nat.div_add_mod i j
  have h2 : i / j * j = j * (i / j) := Nat.mul_comm _ _
  omega

/-- The grouping invariant of Partition at the level of quotient and
remainder: `r` long groups of size `q + 1` (or `q` when `r = 0`) and `j - r`
short groups of size `q` cover `j * q + r` elements. -/
theorem partition_core (q r j : Nat) (hr : r < j) :
    r * (q + if r = 0 then 0 else 1) + (j - r) * q = j * q + r := by
  rcases Nat.eq_zero_or_pos r with h0 | hpos
  · subst h0
    simp
  · have hne : ¬r = 0 := by omega
    simp only [hne, if_false]
    rw [Nat.sub_mul, Nat.mul_add, Nat.mul_one]
    have hle : r * q ≤ j * q := Nat.mul_le_mul_right q (Nat.le_of_lt hr)
    omega

/-- C6: for every I and every J ≥ 1, `partition(I, J)` returns
`(IL, IS, JL, JS)` with `IL = ceil(I/J)`, `IS = floor(I/J)`, `JL = I − IS·J`,
`JS = J − JL`; the invariant `JL·IL + JS·IS = I` holds, `IL` is `IS` or
`IS + 1`, and `partition(10, 3) = (4, 3, 1, 2)`. -/
theorem partition_matches_spec (i j : Nat) (hj : 1 ≤ j) :
    partition i j = ((i + j - 1) / j, i / j, i - i / j * j, j - (i - i / j * j)) ∧
    (i - i / j * j) * ((i + j - 1) / j) + (j - (i - i / j * j)) * (i / j) = i ∧
    ((i + j - 1) / j = i / j ∨ (i + j - 1) / j = i / j + 1) ∧
    partition 10 3 = (4, 3, 1, 2) := by
  have hj0 : 0 < j := hj
  have hceil := natCeilDiv_eq_add_pred_div i j hj0
  have hmod := sub_div_mul_eq_mod i j
  have hdm := Nat.div_add_mod i j
  have hcore := partition_core (i / j) (i % j) j (Nat.mod_lt i hj0)
  refine ⟨by simp [partition, hceil], ?_, ?_, by decide⟩
  · rw [hmod, ← hceil]
    simp only [natCeilDiv]
    rw [hcore]
    omega
  · rw [← hceil]
    simp only [natCeilDiv]
    split <;> omega

/-- Witness for C6 at `I = 10`, `J = 3`. -/
theorem partition_matches_spec_witness : 1 ≤ 3 ∧ partition 10 3 = (4, 3, 1, 2) :=
  ⟨by decide, (partition_matches_spec 10 3 (by decide)).2.2.2⟩

/-- Big-endian recomposition of the three `encoding_symbol_id` bytes is the
identity on 24-bit values; shared by the round-trip claims. -/
theorem payloadId_serialize_roundtrip (sbn esid : Nat) (h : esid < 16777216) :
    PayloadId.deserialize (PayloadId.serialize ⟨sbn, esid⟩) = ⟨sbn, esid⟩ := by
  simp [PayloadId.serialize, PayloadId.deserialize, List.getD]
  omega

/-- C7: `PayloadId::new` fails for every `encoding_symbol_id ≥ 2^24`, succeeds
for every smaller one storing both fields unmodified, and at the boundary
`16777216` fails while `16777215` succeeds and round-trips through
serialize/deserialize. -/
theorem payload_id_new_bounds (sbn esid : Nat) :
    (16777216 ≤ esid → PayloadId.new sbn esid = none) ∧
    (esid < 16777216 → PayloadId.new sbn esid = some ⟨sbn, esid⟩) ∧
    PayloadId.new sbn 16777216 = none ∧
    PayloadId.new sbn 16777215 = some ⟨sbn, 16777215⟩ ∧
    PayloadId.deserialize (PayloadId.serialize ⟨sbn, 16777215⟩) = ⟨sbn, 16777215⟩ := by
  refine ⟨fun h => ?_, fun h => ?_, ?_, ?_, ?_⟩
  · simp only [PayloadId.new, if_neg (by omega : ¬ esid < 16777216)]
  · simp only [PayloadId.new, if_pos h]
  · norm_num [PayloadId.new]
  · norm_num [PayloadId.new]
  · exact payloadId_serialize_roundtrip sbn 16777215 (by norm_num)

/-- Witness for C7 at `source_block_number = 3`, `encoding_symbol_id`
crossing the 24-bit boundary. -/
theorem payload_id_new_bounds_witness :
    16777216 ≤ 16777216 ∧ PayloadId.new 3 16777216 = none :=
  ⟨by decide, (payload_id_new_bounds 3 16777216).1 (by decide)⟩

/-- Counterexample for C8: with `alignment = 0` and `symbol_size = 0`, the
transfer length is in range and `0` is an exact multiple of `0`, yet
construction still fails (in Rust, `symbol_size % alignment` is a fatal
remainder-by-zero), so the claimed fails-exactly-when characterization is
false at this input. -/
theorem oti_new_claim_counterexample :
    ObjectTransmissionInformation.new 0 0 0 0 0 = none ∧
    (0 : Nat) ≤ 946270874880 ∧ (0 : Nat) ∣ 0 :=
  ⟨by decide, by decide, dvd_refl 0⟩

/-- C8 (amended with alignment ≥ 1): `ObjectTransmissionInformation::new`
fails exactly when the transfer length exceeds `946270874880` or the symbol
size is not an exact multiple of the alignment; on success no field is
clamped or truncated; at the boundary, transfer length `946270874880`
succeeds and `946270874881` fails. -/
theorem oti_new_amended (tl ss sb sub al : Nat) (hal : 1 ≤ al) :
    (ObjectTransmissionInformation.new tl ss sb sub al = none ↔
      946270874880 < tl ∨ ss % al ≠ 0) ∧
    (tl ≤ 946270874880 → ss % al = 0 →
      ObjectTransmissionInformation.new tl ss sb sub al = some ⟨tl, ss, sb, sub, al⟩) ∧
    ObjectTransmissionInformation.new 946270874880 8 0 0 8 =
      some ⟨946270874880, 8, 0, 0, 8⟩ ∧
    ObjectTransmissionInformation.new 946270874881 8 0 0 8 = none := by
  have hne : al ≠ 0 := by omega
  refine ⟨?_, fun h1 h2 => ?_, by decide, by decide⟩
  · by_cases h1 : tl ≤ 946270874880 <;> by_cases h2 : ss % al = 0 <;>
      simp [ObjectTransmissionInformation.new, h1, h2, hne] <;> omega
  · simp [ObjectTransmissionInformation.new, h1, h2, hne]

/-- Witness for C8 at `transfer_length = 0`, `symbol_size = 8`,
`alignment = 8`. -/
theorem oti_new_amended_witness :
    1 ≤ 8 ∧ ObjectTransmissionInformation.new 0 8 0 0 8 = some ⟨0, 8, 0, 0, 8⟩ :=
  ⟨by decide, (oti_new_amended 0 8 0 0 8 (by decide)).2.1 (by decide) (by decide)⟩

/-- C9: for `alignment = 0` the constructor fails for every symbol size and
every in-range transfer length (the Rust alignment check takes a remainder by
zero), so totality of construction needs the unstated precondition
`alignment ≥ 1`. -/
theorem oti_new_zero_alignment (tl ss sb sub : Nat) (htl : tl ≤ 946270874880) :
    ObjectTransmissionInformation.new tl ss sb sub 0 = none := by
  simp [ObjectTransmissionInformation.new, htl]

/-- Witness for C9 at the all-zero input. -/
theorem oti_new_zero_alignment_witness :
    (0 : Nat) ≤ 946270874880 ∧ ObjectTransmissionInformation.new 0 0 0 0 0 = none :=
  ⟨by decide, oti_new_zero_alignment 0 0 0 0 (by decide)⟩

/-- C5: serialization round-trips.  `deserialize(serialize(x)) = x` for every
valid PayloadId (24-bit symbol id), every EncodingPacket whose PayloadId is
valid (any payload byte sequence), and every valid
ObjectTransmissionInformation (40-bit transfer length, 16-bit symbol size and
sub-block count); moreover the OTI wire byte 5 is always written as zero and
is ignored on decode. -/
theorem serialization_roundtrip :
    (∀ sbn esid, esid < 16777216 →
      PayloadId.deserialize (PayloadId.serialize ⟨sbn, esid⟩) = ⟨sbn, esid⟩) ∧
    (∀ sbn esid data, esid < 16777216 →
      EncodingPacket.deserialize (EncodingPacket.serialize ⟨⟨sbn, esid⟩, data⟩) =
        ⟨⟨sbn, esid⟩, data⟩) ∧
    (∀ tl ss sb sub al, tl < 1099511627776 → ss < 65536 → sub < 65536 →
      ObjectTransmissionInformation.deserialize
        (ObjectTransmissionInformation.serialize ⟨tl, ss, sb, sub, al⟩) =
        ⟨tl, ss, sb, sub, al⟩) ∧
    (∀ oti : ObjectTransmissionInformation, oti.serialize.getD 5 0 = 0) ∧
    (∀ d0 d1 d2 d3 d4 x d6 d7 d8 d9 d10 d11 : Nat,
      ObjectTransmissionInformation.deserialize
        [d0, d1, d2, d3, d4, x, d6, d7, d8, d9, d10, d11] =
      ObjectTransmissionInformation.deserialize
        [d0, d1, d2, d3, d4, 0, d6, d7, d8, d9, d10, d11]) := by
  refine ⟨fun sbn esid h => ?_, fun sbn esid data h => ?_,
    fun tl ss sb sub al h1 h2 h3 => ?_, fun oti => rfl, fun _ _ _ _ _ _ _ _ _ _ _ _ => rfl⟩
  · exact payloadId_serialize_roundtrip sbn esid h
  · simp [EncodingPacket.serialize, EncodingPacket.deserialize,
      PayloadId.serialize, PayloadId.deserialize, List.getD]
    omega
  · simp [ObjectTransmissionInformation.serialize,
      ObjectTransmissionInformation.deserialize, List.getD]
    omega

/-- Witness for C5: one concrete round-trip of each of the three types. -/
theorem serialization_roundtrip_witness :
    PayloadId.deserialize (PayloadId.serialize ⟨7, 123456⟩) = ⟨7, 123456⟩ ∧
    EncodingPacket.deserialize (EncodingPacket.serialize ⟨⟨7, 123456⟩, [9, 8]⟩) =
      ⟨⟨7, 123456⟩, [9, 8]⟩ ∧
    ObjectTransmissionInformation.deserialize
      (ObjectTransmissionInformation.serialize ⟨946270874880, 1400, 3, 5, 8⟩) =
      ⟨946270874880, 1400, 3, 5, 8⟩ :=
  ⟨serialization_roundtrip.1 7 123456 (by decide),
   serialization_roundtrip.2.1 7 123456 [9, 8] (by decide),
   serialization_roundtrip.2.2.1 946270874880 1400 3 5 8 (by decide) (by decide) (by decide)⟩

/-- A head slot strictly greater than `v` is found at index 0. -/
theorem findIdx_lt_cons_pos (v x : Nat) (rest : List Nat) (hx : v < x) :
    (x :: rest).findIdx (fun y => decide (v < y)) = 0 := by
  rw [List.findIdx_cons, decide_eq_true hx]
  simp

/-- A head slot not strictly greater than `v` shifts the search into the
tail. -/
theorem findIdx_lt_cons_neg (v x : Nat) (rest : List Nat) (hx : ¬v < x) :
    (x :: rest).findIdx (fun y => decide (v < y)) =
      rest.findIdx (fun y => decide (v < y)) + 1 := by
  rw [List.findIdx_cons, decide_eq_false hx]
  simp

/-- The Deg table scan started at 1-based index `d` returns the clamped index
of the first remaining slot strictly greater than `v`, provided such a slot
exists. -/
theorem degScan_eq_findIdx (v W : Nat) (l : List Nat) (d : Nat)
    (h : ∃ x ∈ l, v < x) :
    degScan v W l d =
      some (min (d + l.findIdx (fun x => decide (v < x))) (W - 2)) := by
  induction l generalizing d with
  | nil => simp at h
  | cons x rest ih =>
    by_cases hx : v < x
    · rw [findIdx_lt_cons_pos v x rest hx]
      simp [degScan, hx]
    · have h' : ∃ y ∈ rest, v < y := by
        rcases h with ⟨y, hy, hvy⟩
        rcases List.mem_cons.mp hy with rfl | hmem
        · exact absurd hvy hx
        · exact ⟨y, hmem, hvy⟩
      rw [findIdx_lt_cons_neg v x rest hx]
      simp only [degScan, if_neg hx]
      rw [ih (d + 1) h']
      congr 2
      omega

/-- The index of the first table slot strictly greater than `v` does not
shrink when `v` grows. -/
theorem findIdx_lt_mono (v v' : Nat) (hv : v ≤ v') (l : List Nat) :
    l.findIdx (fun x => decide (v < x)) ≤ l.findIdx (fun x => decide (v' < x)) := by
  induction l with
  | nil => simp
  | cons x rest ih =>
    by_cases h2 : v' < x
    · have h1 : v < x := lt_of_le_of_lt hv h2
      rw [findIdx_lt_cons_pos v x rest h1, findIdx_lt_cons_pos v' x rest h2]
    · by_cases h1 : v < x
      · rw [findIdx_lt_cons_pos v x rest h1]
        exact Nat.zero_le _
      · rw [findIdx_lt_cons_neg v x rest h1, findIdx_lt_cons_neg v' x rest h2]
        omega

/-- Characterization of `deg` on its documented domain, shared by the claims
about `deg` and `intermediate_tuple`. -/
theorem deg_eq_min_degIndexSpec (v W : Nat) (hv : v < 1048576) :
    deg v W = some (min (degIndexSpec v) (W - 2)) := by
  have hmem : ∃ x ∈ degDistributionTable.drop 1, v < x :=
    ⟨1048576, by decide, hv⟩
  rw [deg, if_pos hv, degScan_eq_findIdx v W _ 1 hmem]
  unfold degIndexSpec
  congr 2
  omega

/-- C2: for `v < 1048576` and `W ≥ 2`, `deg(v, W)` equals `min(d, W-2)` with
`d` the smallest 1-based index into the 31-entry cumulative table with
`v < f[d]`; consequently the result is at most `W - 2`, and for fixed `W` it
is non-decreasing in `v`. -/
theorem deg_characterization (v W : Nat) (hv : v < 1048576) (hW : 2 ≤ W) :
    deg v W = some (min (degIndexSpec v) (W - 2)) ∧
    (∀ d, deg v W = some d → d ≤ W - 2) ∧
    (∀ v' d d', v ≤ v' → v' < 1048576 →
      deg v W = some d → deg v' W = some d' → d ≤ d') := by
  have h1 := deg_eq_min_degIndexSpec v W hv
  refine ⟨h1, fun d hd => ?_, fun v' d d' hvv hv' hd hd' => ?_⟩
  · rw [h1] at hd
    have e := Option.some.inj hd
    rw [← e]
    exact Nat.min_le_right _ _
  · have h2 := deg_eq_min_degIndexSpec v' W hv'
    rw [h1] at hd
    rw [h2] at hd'
    have e1 := Option.some.inj hd
    have e2 := Option.some.inj hd'
    have hm : degIndexSpec v ≤ degIndexSpec v' := by
      unfold degIndexSpec
      have := findIdx_lt_mono v v' hvv (degDistributionTable.drop 1)
      omega
    rw [← e1, ← e2]
    exact min_le_min hm (le_refl _)

/-- Witness for C2 at `v = 1000`, `W = 5`. -/
theorem deg_characterization_witness :
    1000 < 1048576 ∧ 2 ≤ 5 ∧ deg 1000 5 = some (min (degIndexSpec 1000) (5 - 2)) :=
  ⟨by decide, by decide, (deg_characterization 1000 5 (by decide) (by decide)).1⟩

/-- The two spellings of the `d1` rule coincide: the reference code tests
`d < 4`, the spec words the rule as `d1 = 2` when `d ≥ 4`. -/
theorem tuple_branch_bridge (d x2 : Nat) :
    (if d < 4 then 2 + x2 else 2) = (if 4 ≤ d then 2 else 2 + x2) := by
  by_cases h : d < 4
  · rw [if_pos h, if_neg (by omega)]
  · rw [if_neg h, if_pos (by omega)]

/-- C1: with the externally supplied constants `J`, `W`, `P1` and a PRNG
honouring the `Rand` contract, `intermediate_tuple` returns exactly the
6-tuple of the spec's algorithm (odd-forced `A`, seed `y = (B + X·A) mod
2^32`, `d` from the degree table, and the `X`-seeded `d1`, `a1`, `b1`).  The
two numeric bounds keep the `u32` products `A` and `B` of the reference code
from wrapping (they hold for every row of the canonical constants table), and
`X < 2^32` is the `u32` domain of the symbol index. -/
theorem intermediate_tuple_matches_spec (rand : Nat → Nat → Nat → Nat)
    (J W P1 X : Nat)
    (hrand : ∀ s i m, 0 < m → rand s i m < m)
    (hA : 53591 + J * 997 < 4294967296)
    (hB : 10267 * (J + 1) < 4294967296)
    (hX : X < 4294967296) :
    intermediate_tuple rand J W P1 X = some (intermediateTupleSpec rand J W P1 X) := by
  simp only [intermediate_tuple, intermediateTupleSpec]
  rw [Nat.mod_eq_of_lt hA, Nat.mod_eq_of_lt hB]
  rw [deg_eq_min_degIndexSpec _ W (hrand _ 0 1048576 (by norm_num))]
  dsimp only
  rw [tuple_branch_bridge]

/-- Witness for C1 with the contract-honouring PRNG that always returns 0,
at `J = 1`, `W = 10`, `P1 = 11`, `X = 5`. -/
theorem intermediate_tuple_matches_spec_witness :
    53591 + 1 * 997 < 4294967296 ∧ 5 < 4294967296 ∧
    intermediate_tuple (fun _ _ _ => 0) 1 10 11 5 =
      some (intermediateTupleSpec (fun _ _ _ => 0) 1 10 11 5) :=
  ⟨by norm_num, by norm_num,
   intermediate_tuple_matches_spec (fun _ _ _ => 0) 1 10 11 5
     (fun _ _ _ hm => hm) (by norm_num) (by norm_num) (by norm_num)⟩

/-- A list containing an element accepted by the predicate yields a find?
hit. -/
theorem find?_isSome_of_mem {α : Type} {p : α → Bool} {l : List α} {x : α}
    (hx : x ∈ l) (hp : p x = true) : ∃ y, l.find? p = some y := by
  induction l with
  | nil => cases hx
  | cons a t ih =>
    cases hpa : p a with
    | true => exact ⟨a, List.find?_cons_of_pos t hpa⟩
    | false =>
      have hxt : x ∈ t := by
        rcases List.mem_cons.mp hx with rfl | hmem
        · rw [hpa] at hp; cases hp
        · exact hmem
      rcases ih hxt with ⟨y, hy⟩
      exact ⟨y, by rw [List.find?_cons_of_neg t (by simp [hpa])]; exact hy⟩

/-- A list on which the predicate never holds yields no find? hit. -/
theorem find?_eq_none_of_all {α : Type} {p : α → Bool} {l : List α}
    (h : ∀ x ∈ l, p x = false) : l.find? p = none := by
  induction l with
  | nil => rfl
  | cons a t ih =>
    rw [List.find?_cons_of_neg t (by simp [h a (List.mem_cons_self a t)])]
    exact ih fun x hx => h x (List.mem_cons_of_mem a hx)

/-- The embedded ceiling division never exceeds its numerator once the
divisor is at least 2. -/
theorem natCeilDiv_le_self (a b : Nat) (hb : 2 ≤ b) : natCeilDiv a b ≤ a := by
  by_cases h : a % b = 0
  · simp only [natCeilDiv, h, if_pos rfl, Nat.add_zero]
    exact Nat.div_le_self a b
  · have ha : a ≠ 0 := fun h0 => h (by rw [h0]; exact Nat.zero_mod b)
    have hd : a / b ≤ a / 2 := Nat.div_le_div_left hb (by omega)
    unfold natCeilDiv
    rw [if_neg h]
    omega

/-- The embedded ceiling division of a positive numerator is positive. -/
theorem natCeilDiv_pos (a b : Nat) (ha : 0 < a) : 0 < natCeilDiv a b := by
  by_cases h : a % b = 0
  · have hb : b ≠ 0 := by
      intro h0
      rw [h0, Nat.mod_zero] at h
      omega
    have hdvd : b ∣ a := Nat.dvd_of_mod_eq_zero h
    simp only [natCeilDiv, h, if_pos rfl, Nat.add_zero]
    exact Nat.div_pos (Nat.le_of_dvd ha hdvd) (Nat.pos_of_ne_zero hb)
  · unfold natCeilDiv
    rw [if_neg h]
    exact Nat.succ_pos _

/-- The memory bound of the `kl` scan is at least 20 for every positive
sub-block count and every in-range positive symbol size, because the inner
ceiling `x` never exceeds the 16-bit symbol size. -/
theorem klBound_ge_20 (ss n : Nat) (h1 : 0 < ss) (h2 : ss < 65536) (hn : 0 < n) :
    20 ≤ klBound ss n := by
  have hx_le : natCeilDiv ss (8 * n) ≤ ss := natCeilDiv_le_self ss (8 * n) (by omega)
  have hx_pos : 0 < natCeilDiv ss (8 * n) := natCeilDiv_pos ss (8 * n) h1
  unfold klBound
  rw [if_neg (by omega), if_neg (by omega)]
  have h524 : 8 * natCeilDiv ss (8 * n) ≤ 524288 := by omega
  have hmono : 10485760 / 524288 ≤ 10485760 / (8 * natCeilDiv ss (8 * n)) :=
    Nat.div_le_div_left h524 (by omega)
  norm_num at hmono
  exact hmono

/-- The `kl` scan finds a row whenever the canonical minimum 10 is in the
table, the symbol size is positive and 16-bit, and the sub-block count is
positive. -/
theorem kl_isSome (kprimes : List Nat) (ss n : Nat) (h10 : 10 ∈ kprimes)
    (h1 : 0 < ss) (h2 : ss < 65536) (hn : 0 < n) :
    ∃ k, kl kprimes ss n = some k := by
  have hb := klBound_ge_20 ss n h1 h2 hn
  exact find?_isSome_of_mem (List.mem_reverse.mpr h10)
    (decide_eq_true (by omega : (10 : Nat) ≤ klBound ss n))

/-- With a zero sub-block count the memory bound is 0, so a table whose
entries all sit at or above the canonical minimum 10 yields no row. -/
theorem kl_eq_none_at_zero (kprimes : List Nat) (ss : Nat)
    (h : ∀ k ∈ kprimes, 10 ≤ k) : kl kprimes ss 0 = none := by
  apply find?_eq_none_of_all
  intro x hx
  have hk := h x (List.mem_reverse.mp hx)
  have hb : klBound ss 0 = 0 := by simp [klBound]
  apply decide_eq_false
  rw [hb]
  omega

/-- With target 0 the sub-block loop breaks at its first candidate, provided
the first `kl` scan succeeds. -/
theorem chooseSubBlocks_target_zero (kprimes : List Nat) (ss n_max : Nat)
    (hn : 0 < n_max) (hk : ∃ k, kl kprimes ss 1 = some k) :
    chooseSubBlocks kprimes ss 0 n_max = some 1 := by
  obtain ⟨k, hk1⟩ := hk
  obtain ⟨m, hm⟩ : ∃ m, n_max = m + 1 := ⟨n_max - 1, by omega⟩
  rw [chooseSubBlocks, if_neg (by omega), hm]
  simp only [chooseSubBlocksScan]
  rw [hk1]
  simp

/-- C4: at `max_packet_size = 8` (allowed by the only stated precondition)
the computed `n_max` is 0, the memory bound of the `kl` scan is 0, and
because every Kprime of the canonical table is at least 10 the scan finds no
row: the `unreachable!()` branch is executed and `with_defaults` dies through
it, for example at `transfer_length = 0`. -/
theorem kl_scan_unreachable_reached (kprimes : List Nat)
    (h : ∀ k ∈ kprimes, 10 ≤ k) :
    kl kprimes 8 0 = none ∧ with_defaults kprimes 0 8 = none := by
  have hkl := kl_eq_none_at_zero kprimes 8 h
  refine ⟨hkl, ?_⟩
  simp only [with_defaults]
  norm_num
  rw [hkl]

/-- Witness for C4 at the sample Kprime column. -/
theorem kl_scan_unreachable_reached_witness :
    kl kprimeColumnSample 8 0 = none ∧ with_defaults kprimeColumnSample 0 8 = none :=
  kl_scan_unreachable_reached kprimeColumnSample (by decide)

/-- Counterexample for C3: at `transfer_length = 0` and `max_packet_size =
64`, `with_defaults` returns an OTI whose `num_source_blocks` is 0, not at
least 1 as claimed (the total symbol count `kt` is 0, so the ceiling
`kt / KL(N_max)` is 0). -/
theorem with_defaults_zero_length_counterexample :
    with_defaults kprimeColumnSample 0 64 =
      some { transfer_length := 0, symbol_size := 64, num_source_blocks := 0,
             num_sub_blocks := 1, symbol_alignment := 8 } ∧
    ¬1 ≤ 0 :=
  ⟨by decide, by decide⟩

/-- C3 (amended): for `transfer_length = 0` and every `max_packet_size` of at
least 64 (so that `N_max ≥ 1` keeps the `kl` scan alive; `max_packet_size` is
a `u16`), `with_defaults` returns an OTI whose `symbol_size` is an exact
multiple of the alignment 8 and whose `num_source_blocks` is 0 — not at least
1.  Stated for any Kprime column containing the canonical minimal row 10. -/
theorem with_defaults_zero_length_amended (kprimes : List Nat) (mps : Nat)
    (h10 : 10 ∈ kprimes) (hmps : 64 ≤ mps) (hmps2 : mps < 65536) :
    with_defaults kprimes 0 mps =
      some { transfer_length := 0, symbol_size := mps - mps % 8,
             num_source_blocks := 0, num_sub_blocks := 1, symbol_alignment := 8 } ∧
    (mps - mps % 8) % 8 = 0 := by
  have hss_ge : 64 ≤ mps - mps % 8 := by omega
  have hss_lt : mps - mps % 8 < 65536 := by omega
  have hnmax : 0 < (mps - mps % 8) / 64 := by omega
  obtain ⟨kmax, hkmax⟩ :=
    kl_isSome kprimes (mps - mps % 8) ((mps - mps % 8) / 64) h10 (by omega) hss_lt hnmax
  have hk1 := kl_isSome kprimes (mps - mps % 8) 1 h10 (by omega) hss_lt (by omega)
  have hcn := chooseSubBlocks_target_zero kprimes (mps - mps % 8)
    ((mps - mps % 8) / 64) hnmax hk1
  have h0 : ∀ b, natCeilDiv 0 b = 0 := fun b => by simp [natCeilDiv]
  refine ⟨?_, by omega⟩
  rw [with_defaults, if_neg (by omega : ¬mps < 8)]
  simp only [h0]
  rw [hkmax]
  simp only [h0]
  rw [hcn]

/-- Witness for C3 (amended) at `max_packet_size = 64` over the sample
Kprime column. -/
theorem with_defaults_zero_length_amended_witness :
    with_defaults kprimeColumnSample 0 64 =
      some { transfer_length := 0, symbol_size := 64 - 64 % 8,
             num_source_blocks := 0, num_sub_blocks := 1, symbol_alignment := 8 } ∧
    (64 - 64 % 8) % 8 = 0 :=
  with_defaults_zero_length_amended kprimeColumnSample 64 (by decide) (by decide) (by decide)

/-- C10: whenever `with_defaults` returns, its `num_source_blocks` field is
the computed block count `ceil(kt / KL(N_max))` reduced modulo 256 and its
`num_sub_blocks` field is the chosen sub-block count reduced modulo 2^16; and
at `transfer_length = 946270874880` (the 40-bit maximum) with
`max_packet_size = 64`, the computed block count is 262140, which exceeds 255
and is silently stored as `262140 mod 256 = 252`. -/
theorem with_defaults_narrowing :
    (∀ (kprimes : List Nat) (tl mps : Nat) (oti : ObjectTransmissionInformation),
      with_defaults kprimes tl mps = some oti →
      ∃ kl_n_max n,
        kl kprimes (mps - mps % 8) ((mps - mps % 8) / 64) = some kl_n_max ∧
        chooseSubBlocks kprimes (mps - mps % 8)
          (natCeilDiv (natCeilDiv tl (mps - mps % 8))
            (natCeilDiv (natCeilDiv tl (mps - mps % 8)) kl_n_max))
          ((mps - mps % 8) / 64) = some n ∧
        oti.num_source_blocks =
          natCeilDiv (natCeilDiv tl (mps - mps % 8)) kl_n_max % 256 ∧
        oti.num_sub_blocks = n % 65536) ∧
    natCeilDiv (natCeilDiv 946270874880 64) 56403 = 262140 ∧
    with_defaults kprimeColumnSample 946270874880 64 =
      some { transfer_length := 946270874880, symbol_size := 64,
             num_source_blocks := 252, num_sub_blocks := 1,
             symbol_alignment := 8 } := by
  refine ⟨?_, by decide, by decide⟩
  intro kprimes tl mps oti h
  by_cases hm : mps < 8
  · rw [with_defaults, if_pos hm] at h
    simp at h
  · rw [with_defaults, if_neg hm] at h
    dsimp only at h
    rcases hkl : kl kprimes (mps - mps % 8) ((mps - mps % 8) / 64) with _ | kmax
    · rw [hkl] at h
      simp at h
    · rw [hkl] at h
      dsimp only at h
      rcases hcn : chooseSubBlocks kprimes (mps - mps % 8)
          (natCeilDiv (natCeilDiv tl (mps - mps % 8))
            (natCeilDiv (natCeilDiv tl (mps - mps % 8)) kmax))
          ((mps - mps % 8) / 64) with _ | n
      · rw [hcn] at h
        simp at h
      · rw [hcn] at h
        dsimp only at h
        have e := Option.some.inj h
        exact ⟨kmax, n, rfl, hcn, by rw [← e], by rw [← e]⟩

/-- Witness for C10 at the sample Kprime column, `transfer_length = 0` and
`max_packet_size = 64`. -/
theorem with_defaults_narrowing_witness :
    ∃ kl_n_max n,
      kl kprimeColumnSample (64 - 64 % 8) ((64 - 64 % 8) / 64) = some kl_n_max ∧
      chooseSubBlocks kprimeColumnSample (64 - 64 % 8)
        (natCeilDiv (natCeilDiv 0 (64 - 64 % 8))
          (natCeilDiv (natCeilDiv 0 (64 - 64 % 8)) kl_n_max))
        ((64 - 64 % 8) / 64) = some n ∧
      (ObjectTransmissionInformation.mk 0 64 0 1 8).num_source_blocks =
        natCeilDiv (natCeilDiv 0 (64 - 64 % 8)) kl_n_max % 256 ∧
      (ObjectTransmissionInformation.mk 0 64 0 1 8).num_sub_blocks = n % 65536 :=
  with_defaults_narrowing.1 kprimeColumnSample 0 64 ⟨0, 64, 0, 1, 8⟩ (by decide)
